import Mathlib

/-!
Verification of the HAIx_LAB BCI demo repository.

This file gives a shallow embedding of the algorithmic core of the
repository (the dwell/hover state machine, the focus resolver, the
dot-swarm update, and the Task_3 calibration controller) and proves
the specification claims about it.

Conventions:
* Python wall-clock timestamps and `dt` values are modelled as rationals
  (exact arithmetic standing in for the code's float timestamps).
* Geometry that goes through `math.hypot` is modelled over the reals,
  with `hypot x y = Real.sqrt (x*x + y*y)`.
* A Python object reference to a stimulus box / circle is modelled by its
  integer index, `None` by `Option.none`.
-/

namespace HAIxLab

/-! ## Dwell / hover state machine

Embedding of the hover-state part of `BCIInterface.animate`
(`src/Task_1/bci_ui/logic_controller.py` lines 129-185 and the identical
logic in `src/Task_2/logic_controller.py` lines 169-216).  The Task_1
variant uses explicit `is not None` tests; the Task_2 variant uses Python
truthiness (`if self.active_box and self.hover_start_time:`), which agrees
with Task_1 except at a timestamp equal to exactly 0.0; we embed the
explicit Task_1 semantics.  The resolver result `closest_box` and the
current time `now` are the per-tick inputs of the state machine.
-/

/-- Constants from `src/config.py` that the claims mention:
window 1200x700, `CENTER_X = WINDOW_WIDTH // 2`. -/
def CENTER_X : ℚ := 600

/-- Constant `CENTER_Y = WINDOW_HEIGHT // 2` from `src/config.py`. -/
def CENTER_Y : ℚ := 350

/-- Constant `RETURN_DELAY = 0.3` from `src/config.py`. -/
def RETURN_DELAY : ℚ := 3 / 10

/-- Constant `DEFAULT_HOVER_THRESHOLD = 2.0` from `src/config.py`. -/
def DEFAULT_HOVER_THRESHOLD : ℚ := 2

/-- The four hover-state fields of `BCIInterface` that
`animate` reads and writes (`self.active_box`, `self.hover_start_time`,
`self.is_hovering_long_enough`, `self.lost_focus_time`). -/
structure HoverState where
  active_box : Option ℕ
  hover_start_time : Option ℚ
  is_hovering_long_enough : Bool
  lost_focus_time : Option ℚ
deriving DecidableEq

/-- The hover-state update of one `animate` tick
(`logic_controller.py`, Task_1 lines 137-154 / Task_2 lines 177-190),
given the tick time `now` and the resolver result `closest`. -/
def hoverStep (th : ℚ) (now : ℚ) (closest : Option ℕ) (s : HoverState) :
    HoverState :=
  if closest ≠ s.active_box then
    { active_box := closest
      hover_start_time := if closest.isSome then some now else none
      is_hovering_long_enough := false
      lost_focus_time := if closest.isSome then none else some now }
  else
    match s.active_box, s.hover_start_time with
    | some _, some t0 =>
        if now - t0 ≥ th then
          { s with is_hovering_long_enough := true, lost_focus_time := none }
        else s
    | some _, none => s
    | none, _ =>
        match s.lost_focus_time with
        | none => { s with lost_focus_time := some now }
        | some _ => s

/-- The per-tick `should_move_dots` decision of one tick
(Task_1 lines 156-166 / Task_2 lines 192-197), evaluated on the
already-updated hover state. -/
def shouldMoveDots (rd : ℚ) (now : ℚ) (s : HoverState) : Bool :=
  if s.is_hovering_long_enough && s.active_box.isSome then
    true
  else
    match s.lost_focus_time with
    | some t => decide (now - t < rd)
    | none => false

/-- The per-tick swarm pull target passed to `dots.set_target`
(Task_1 lines 168-172 / Task_2 lines 199-203): the cursor with tracking
flag `true`, or the center with flag `false`. -/
def dotsTargetChoice (cx cy mx my : ℚ) (smd : Bool) (s : HoverState) :
    ℚ × ℚ × Bool :=
  if smd && s.active_box.isSome then (mx, my, true) else (cx, cy, false)

/-- One whole `animate` tick as far as the hover state and the swarm
target are concerned: updates the state, derives `should_move_dots`, and
chooses the `set_target` arguments, in the source's order. -/
def animateTick (th rd cx cy mx my : ℚ) (now : ℚ) (closest : Option ℕ)
    (s : HoverState) : HoverState × Bool × (ℚ × ℚ × Bool) :=
  let s' := hoverStep th now closest s
  let smd := shouldMoveDots rd now s'
  (s', smd, dotsTargetChoice cx cy mx my smd s')

/-- Iterating `hoverStep` over a list of `(now, resolver result)` tick
inputs. -/
def runSteps (th : ℚ) (inputs : List (ℚ × Option ℕ)) (s : HoverState) :
    HoverState :=
  inputs.foldl (fun s p => hoverStep th p.1 p.2 s) s

/-! ## Task_3 calibration controller

Embedding of the calibration-related state and operations of
`BCIController` (`src/Task_3/code/controller.py`).  The `random.shuffle`
call is modelled by an explicit shuffle oracle `shuffle : ℕ → List ℕ →
List ℕ` (one permutation per round); faithfulness of the oracle to
`random.shuffle` is the hypothesis that its output is a permutation of
its input.  The `CenterCircle` dot targets are abstracted to a
`DotsTarget` value: `return_dots_home()` sets it to `home`,
`move_dots_toward(x, y, p)` to `toward x y p`.  Status-callback calls are
external output and are not part of the state. -/

/-- Constant `PHASE_TESTING` from `src/Task_3/code/config.py`. -/
def PHASE_TESTING : String := "Testing Phase"

/-- Constant `PHASE_CALIBRATION` from `src/Task_3/code/config.py`. -/
def PHASE_CALIBRATION : String := "Calibration Phase"

/-- Constant `PHASE_START` from `src/Task_3/code/config.py`. -/
def PHASE_START : String := "Start Phase"

/-- Constant `DEFAULT_CALIBRATION_ROUNDS = 5` from `src/Task_3/code/config.py`. -/
def DEFAULT_CALIBRATION_ROUNDS : ℕ := 5

/-- Abstraction of the `CenterCircle` dot-target state: every dot
targeted at its home position, or the cluster pushed toward a point. -/
inductive DotsTarget where
  | home : DotsTarget
  | toward (x y progress : ℚ) : DotsTarget
deriving DecidableEq

/-- The calibration-relevant state of `BCIController`
(`src/Task_3/code/controller.py`, `__init__` lines 49-73): phase, timing
options, calibration bookkeeping, the per-circle glow flags of the eight
`StimulusCircle`s, the timer visibility, and the swarm target. -/
structure ControllerState where
  current_phase : String
  focus_time : ℚ
  gap_time : ℚ
  calibration_rounds : ℕ
  calibration_active : Bool
  calibration_sequence : List ℕ
  current_calibration_index : ℕ
  calibration_start_time : Option ℚ
  calibration_session_start : Option ℚ
  calibration_completed_rounds : ℕ
  is_in_glow_phase : Bool
  is_in_gap_phase : Bool
  glow : List Bool
  timer_visible : Bool
  dots_target : DotsTarget
deriving DecidableEq

/-- Initial `BCIController.__init__` values of the embedded fields
(`DEFAULT_FOCUS_TIME = 3.0`, `DEFAULT_GAP_TIME = 2.0`,
`DEFAULT_CALIBRATION_ROUNDS = 5`; eight stimulus circles are created with
glow off). -/
def initControllerState : ControllerState where
  current_phase := PHASE_TESTING
  focus_time := 3
  gap_time := 2
  calibration_rounds := DEFAULT_CALIBRATION_ROUNDS
  calibration_active := false
  calibration_sequence := []
  current_calibration_index := 0
  calibration_start_time := none
  calibration_session_start := none
  calibration_completed_rounds := 0
  is_in_glow_phase := false
  is_in_gap_phase := false
  glow := List.replicate 8 false
  timer_visible := false
  dots_target := DotsTarget.home

/-- Embedding of `BCIController._generate_calibration_sequence` (lines 202-213): for
each round, shuffle `list(range(8))` and append it to the sequence. -/
def generate_calibration_sequence (rounds : ℕ)
    (shuffle : ℕ → List ℕ → List ℕ) : List ℕ :=
  ((List.range rounds).map (fun r => shuffle r (List.range 8))).flatten

/-- Embedding of `BCIController._deactivate_all_stimuli` (lines 220-223):
`set_glow(False)` on every stimulus circle. -/
def deactivate_all_stimuli (g : List Bool) : List Bool :=
  g.map (fun _ => false)

/-- Embedding of `BCIController._activate_stimulus` (lines 215-218): deactivate all
stimulus circles, then `set_glow(True)` on circle `index`. -/
def activate_stimulus (index : ℕ) (g : List Bool) : List Bool :=
  (deactivate_all_stimuli g).set index true

/-- Embedding of `BCIController.stop_calibration` (lines 193-200): when a calibration
is active, clear the active flag, deactivate all stimuli, return the dots
home and hide the timer; otherwise do nothing. -/
def stop_calibration (s : ControllerState) : ControllerState :=
  if s.calibration_active then
    { s with
      calibration_active := false
      glow := deactivate_all_stimuli s.glow
      dots_target := DotsTarget.home
      timer_visible := false }
  else s

/-- Embedding of `BCIController.start_calibration` (lines 163-191): reject (returning
`False` and leaving the state unchanged) unless the current phase is the
calibration phase; otherwise generate a fresh sequence, reset index,
completed-rounds counter and both timers, enter the glow phase, show the
timer, and glow the first target of the new sequence.  The two
`time.time()` calls of the source are modelled by the single tick time
`now`.  An empty generated sequence (only possible with zero rounds)
would raise `IndexError` at `self.calibration_sequence[0]`; that fallible
access is modelled by `Option.none`. -/
def start_calibration (now : ℚ) (shuffle : ℕ → List ℕ → List ℕ)
    (s : ControllerState) : Option (Bool × ControllerState) :=
  if s.current_phase ≠ PHASE_CALIBRATION then
    some (false, s)
  else
    match generate_calibration_sequence s.calibration_rounds shuffle with
    | [] => none
    | i :: rest =>
        some (true,
          { s with
            calibration_sequence := i :: rest
            calibration_active := true
            current_calibration_index := 0
            calibration_completed_rounds := 0
            calibration_start_time := some now
            calibration_session_start := some now
            is_in_glow_phase := true
            is_in_gap_phase := false
            timer_visible := true
            glow := activate_stimulus i s.glow })

/-- A controller state in the middle of an active calibration run, used
as concrete input for the stop/restart claims. -/
def midCalibrationState : ControllerState :=
  { initControllerState with
    current_phase := PHASE_CALIBRATION
    calibration_active := true
    calibration_sequence := [7, 6, 5]
    current_calibration_index := 2
    calibration_completed_rounds := 1
    calibration_start_time := some 4
    calibration_session_start := some 0
    is_in_glow_phase := true
    timer_visible := true
    glow := (List.replicate 8 false).set 5 true
    dots_target := DotsTarget.toward 100 100 1 }

/-! ## Focus resolver

Embedding of `BCIInterface.get_closest_box`
(`src/Task_2/logic_controller.py` lines 147-166 and the identical
`src/Task_1/bci_ui/logic_controller.py` lines 106-127).  The code's float
arithmetic is modelled over the reals; `math.hypot dx dy` is
`Real.sqrt (dx*dx + dy*dy)`.  The loop accumulator starts from
`min_dist = float("inf")`, `target = None`; since every computed
distance is finite and `d < inf` always holds, the infinite initial
distance is modelled by an `Option.none` accumulator whose first
comparison always succeeds. -/

/-- Function `math.hypot` on reals. -/
noncomputable def hypot (x y : ℝ) : ℝ := Real.sqrt (x * x + y * y)

/-- A stimulus box as the resolver sees it: its center coordinates
`self.cx`, `self.cy`. -/
structure Box where
  cx : ℝ
  cy : ℝ

/-- The distance computed in the resolver loop body:
`math.hypot(cursor_x - box.cx, cursor_y - box.cy)`. -/
noncomputable def boxDist (px py : ℝ) (b : Box) : ℝ := hypot (px - b.cx) (py - b.cy)

/-- The body of the `for box in self.boxes` loop of `get_closest_box`
(lines 159-165): compute `d = math.hypot(cursor_x - box.cx, cursor_y -
box.cy)` and keep `(d, box)` when `d` is strictly below the running
minimum. -/
noncomputable def loopBody (px py : ℝ) (acc : Option (ℝ × Box)) (box : Box) :
    Option (ℝ × Box) :=
  let d := hypot (px - box.cx) (py - box.cy)
  match acc with
  | none => some (d, box)
  | some (m, t) => if d < m then some (d, box) else some (m, t)

/-- The minimum search of `get_closest_box` (lines 157-166), folding
`loopBody` from the initial `min_dist = inf`, `target = None`
accumulator. -/
noncomputable def closestLoop (px py : ℝ) (boxes : List Box) : Option (ℝ × Box) :=
  boxes.foldl (loopBody px py) none

/-- Embedding of `BCIInterface.get_closest_box` (lines 147-166): `None` inside the
neutral zone (`dist_center < self.circle_radius * 0.7`), else the loop
minimum. -/
noncomputable def get_closest_box (cx cy radius px py : ℝ) (boxes : List Box) :
    Option Box :=
  if hypot (px - cx) (py - cy) < radius * 0.7 then none
  else (closestLoop px py boxes).map Prod.snd

/-- Spec-side resolver for the refinement comparison, written from the
spec's words: return the target whose center is nearest the pointer,
Euclidean, ties broken by the first target encountered in iteration
order. -/
noncomputable def nearestFirst (px py : ℝ) : List Box → Option Box
  | [] => none
  | b :: l =>
      match nearestFirst px py l with
      | none => some b
      | some c =>
          if boxDist px py c < boxDist px py b then some c else some b

/-! ## Dot-swarm update

Embedding of `CrowdDots.update` (`src/ui_components.py` lines 141-214).
Float arithmetic is modelled over the reals.  The per-dot mutable state
(`positions[i]`, `target_positions[i]`, `velocities[i]`) is a `Dot`
record; canvas drawing (`_update_dot_visual`) has no effect on the state
and is omitted.  A faithful quirk of the source is kept: `total_speed`
accumulates the per-dot `speed` computed *before* the max-speed clamp,
while `avg_vx`/`avg_vy` accumulate the final post-clamp, post-boundary
velocities. -/

/-- One particle of the swarm: position, target position, velocity. -/
structure Dot where
  px : ℝ
  py : ℝ
  tx : ℝ
  ty : ℝ
  vx : ℝ
  vy : ℝ

/-- The body of the `for i in range(self.count)` loop of
`CrowdDots.update` (lines 152-210), with `spring_strength = 8.0`,
`damping = 0.85`, `max_speed = 300.0`: spring acceleration toward the
target (or velocity halving when within 0.5 px of it), damping, speed
clamp to `max_speed * dt`, position integration, and the soft boundary
push-back at `radius * 0.95`.  Returns the updated dot and the `speed`
value added to `total_speed`. -/
noncomputable def dotStep (cx cy radius dt : ℝ) (d : Dot) : Dot × ℝ :=
  let dx := d.tx - d.px
  let dy := d.ty - d.py
  let dist := hypot dx dy
  let vx1 := if dist > 0.5 then d.vx + dx * 8.0 * dt else d.vx * 0.5
  let vy1 := if dist > 0.5 then d.vy + dy * 8.0 * dt else d.vy * 0.5
  let vx2 := vx1 * 0.85
  let vy2 := vy1 * 0.85
  let speed := hypot vx2 vy2
  let vx3 := if speed > 300.0 * dt then vx2 * (300.0 * dt / speed) else vx2
  let vy3 := if speed > 300.0 * dt then vy2 * (300.0 * dt / speed) else vy2
  let px1 := d.px + vx3
  let py1 := d.py + vy3
  let dxc := px1 - cx
  let dyc := py1 - cy
  let distc := hypot dxc dyc
  let px2 :=
    if distc > radius * 0.95 then cx + dxc * (radius * 0.95 / distc)
    else px1
  let py2 :=
    if distc > radius * 0.95 then cy + dyc * (radius * 0.95 / distc)
    else py1
  let vx4 := if distc > radius * 0.95 then vx3 * 0.7 else vx3
  let vy4 := if distc > radius * 0.95 then vy3 * 0.7 else vy3
  (Dot.mk px2 py2 d.tx d.ty vx4 vy4, speed)

/-- The whole particle loop of `CrowdDots.update`: the updated dots and
the `avg_vx`, `avg_vy`, `total_speed` accumulators (lines 143-145 and
208-210). -/
noncomputable def updateAccum (cx cy radius dt : ℝ) (dots : List Dot) :
    List Dot × ℝ × ℝ × ℝ :=
  dots.foldl
    (fun acc d =>
      let r := dotStep cx cy radius dt d
      (acc.1 ++ [r.1], acc.2.1 + r.1.vx, acc.2.2.1 + r.1.vy,
        acc.2.2.2 + r.2))
    ([], 0, 0, 0)

/-- Embedding of `CrowdDots.update` (lines 141-214): run the particle loop, then
`coherence = math.hypot(avg_vx, avg_vy) / (total_speed + 1e-6)` when
`total_speed > 0` else `0.0`, returned as `max(0.0, min(1.0,
coherence))`. -/
noncomputable def update (cx cy radius dt : ℝ) (dots : List Dot) : List Dot × ℝ :=
  let a := updateAccum cx cy radius dt dots
  let coherence :=
    if a.2.2.2 > 0 then hypot a.2.1 a.2.2.1 / (a.2.2.2 + 1 / 1000000)
    else 0
  (a.1, max 0 (min 1 coherence))

/-! ## Lemmas and claim theorems -/

lemma hoverStep_same_box (th now : ℚ) (b : ℕ) (s : HoverState)
    (hb : s.active_box = some b) :
    (hoverStep th now (some b) s).active_box = some b ∧
      ((hoverStep th now (some b) s).is_hovering_long_enough = true ∨
        (hoverStep th now (some b) s).is_hovering_long_enough =
          s.is_hovering_long_enough) := by
  rcases s with ⟨ab, hs, flag, lf⟩
  simp only at hb
  subst hb
  unfold hoverStep
  rw [if_neg (by simp)]
  cases hs with
  | none => exact ⟨rfl, Or.inr rfl⟩
  | some t0 =>
      dsimp only
      by_cases hth : now - t0 ≥ th
      · rw [if_pos hth]; exact ⟨rfl, Or.inl rfl⟩
      · rw [if_neg hth]; exact ⟨rfl, Or.inr rfl⟩

lemma runSteps_same_box (th : ℚ) (b : ℕ) (inputs : List (ℚ × Option ℕ))
    (hin : ∀ p ∈ inputs, p.2 = some b) :
    ∀ s : HoverState, s.active_box = some b →
      s.is_hovering_long_enough = true →
      (runSteps th inputs s).active_box = some b ∧
        (runSteps th inputs s).is_hovering_long_enough = true := by
  induction inputs with
  | nil => intro s hb hh; exact ⟨hb, hh⟩
  | cons p rest ih =>
      intro s hb hh
      have hp : p.2 = some b := hin p (List.mem_cons_self p rest)
      have hrest : ∀ q ∈ rest, q.2 = some b := fun q hq =>
        hin q (List.mem_cons_of_mem p hq)
      have hstep := hoverStep_same_box th p.1 b s hb
      have hh' : (hoverStep th p.1 (some b) s).is_hovering_long_enough = true := by
        rcases hstep.2 with h | h
        · exact h
        · rw [h]; exact hh
      have : runSteps th (p :: rest) s = runSteps th rest (hoverStep th p.1 p.2 s) := by
        simp [runSteps, List.foldl_cons]
      rw [this, hp]
      exact ih hrest (hoverStep th p.1 (some b) s) hstep.1 hh'

/-- C2: once `is_hovering_long_enough` is true with a target focused, it
stays true (and the target stays focused) across every run of ticks whose
resolver result is continuously that same target; and any tick whose
resolver result differs from the previous `active_box` (changes to or from
`None` included) resets it to false. -/
theorem C2_dwell_monotonicity :
    (∀ (th : ℚ) (b : ℕ) (inputs : List (ℚ × Option ℕ)) (s : HoverState),
        s.active_box = some b →
        s.is_hovering_long_enough = true →
        (∀ p ∈ inputs, p.2 = some b) →
        (runSteps th inputs s).active_box = some b ∧
          (runSteps th inputs s).is_hovering_long_enough = true) ∧
    (∀ (th now : ℚ) (closest : Option ℕ) (s : HoverState),
        closest ≠ s.active_box →
        (hoverStep th now closest s).is_hovering_long_enough = false) := by
  constructor
  · intro th b inputs s hb hh hin
    exact runSteps_same_box th b inputs hin s hb hh
  · intro th now closest s hne
    unfold hoverStep
    rw [if_pos hne]

/-- Witness for C2 at concrete inputs: a state holding box 1 with the
dwell flag set, run over two further ticks on box 1, then a tick that
switches to box 2. -/
theorem C2_dwell_monotonicity_witness :
    (HoverState.mk (some 1) (some 0) true none).active_box = some 1 ∧
    (HoverState.mk (some 1) (some 0) true none).is_hovering_long_enough = true ∧
    (∀ p ∈ [((3 : ℚ), some 1), ((4 : ℚ), some 1)], p.2 = some 1) ∧
    (runSteps 2 [((3 : ℚ), some 1), ((4 : ℚ), some 1)]
        (HoverState.mk (some 1) (some 0) true none)).is_hovering_long_enough
      = true ∧
    (some 2 ≠ (HoverState.mk (some 1) (some 0) true none).active_box) ∧
    (hoverStep 2 5 (some 2)
        (HoverState.mk (some 1) (some 0) true none)).is_hovering_long_enough
      = false := by
  refine ⟨rfl, rfl, by decide, ?_, by decide, ?_⟩
  · exact (C2_dwell_monotonicity.1 2 1 [((3 : ℚ), some 1), ((4 : ℚ), some 1)]
      (HoverState.mk (some 1) (some 0) true none) rfl rfl (by decide)).2
  · exact C2_dwell_monotonicity.2 2 5 (some 2)
      (HoverState.mk (some 1) (some 0) true none) (by decide)

/-- C1: evaluation of the code at a grace-period tick.  With the cursor at
box 5 (center `(980, 350)`) and focus on box 5 held long enough, the tick
at time 0 where the resolver returns `none` produces the lost-focus state
`⟨none, none, false, some 0⟩`.  On the next tick at time 0.1 (inside the
0.3 s return delay) `should_move_dots` is `true` — the grace period is
active — yet the swarm pull target passed to `dots.set_target` is already
the center `(600, 350)` with tracking flag `false`, not the last focused
target position: the guard `should_move_dots and self.active_box` can
never hold during the grace period because `active_box` is `None`, so the
swarm relaxes home immediately, contradicting the claimed grace-period
behavior (and the code's own comment `Keep current position briefly`). -/
theorem C1_grace_period_code_evaluation :
    hoverStep DEFAULT_HOVER_THRESHOLD 0 none
        (HoverState.mk (some 5) (some (-3)) true none) =
      HoverState.mk none none false (some 0) ∧
    (animateTick DEFAULT_HOVER_THRESHOLD RETURN_DELAY CENTER_X CENTER_Y
        980 350 (1 / 10) none
        (HoverState.mk none none false (some 0))).1 =
      HoverState.mk none none false (some 0) ∧
    (animateTick DEFAULT_HOVER_THRESHOLD RETURN_DELAY CENTER_X CENTER_Y
        980 350 (1 / 10) none
        (HoverState.mk none none false (some 0))).2.1 = true ∧
    (animateTick DEFAULT_HOVER_THRESHOLD RETURN_DELAY CENTER_X CENTER_Y
        980 350 (1 / 10) none
        (HoverState.mk none none false (some 0))).2.2 =
      (CENTER_X, CENTER_Y, false) ∧
    (CENTER_X, CENTER_Y) ≠ ((980 : ℚ), (350 : ℚ)) := by
  refine ⟨?_, ?_, ?_, ?_, ?_⟩ <;>
    · simp only [hoverStep, animateTick, shouldMoveDots, dotsTargetChoice,
        DEFAULT_HOVER_THRESHOLD, RETURN_DELAY, CENTER_X, CENTER_Y]
      norm_num <;> decide

/-- C5: `should_move_dots` is true exactly when (the dwell flag is set and
a target is focused) or (focus was lost and we are strictly inside the
return-delay window); with `RETURN_DELAY = 0.3` and focus lost at time 0
it is true at 0.29 s and false at 0.31 s. -/
theorem C5_should_move_dots_iff :
    (∀ (rd now : ℚ) (s : HoverState),
        shouldMoveDots rd now s = true ↔
          ((s.is_hovering_long_enough = true ∧ s.active_box ≠ none) ∨
            (∃ t, s.lost_focus_time = some t ∧ now - t < rd))) ∧
    shouldMoveDots RETURN_DELAY (29 / 100)
        (HoverState.mk none none false (some 0)) = true ∧
    shouldMoveDots RETURN_DELAY (31 / 100)
        (HoverState.mk none none false (some 0)) = false := by
  refine ⟨?_, by norm_num [shouldMoveDots, RETURN_DELAY],
    by norm_num [shouldMoveDots, RETURN_DELAY]⟩
  intro rd now s
  rcases s with ⟨ab, hs, flag, lf⟩
  cases flag <;> cases ab <;> cases lf <;>
    simp [shouldMoveDots]

lemma generate_length (rounds : ℕ) (shuffle : ℕ → List ℕ → List ℕ)
    (hsh : ∀ r, (shuffle r (List.range 8)).Perm (List.range 8)) :
    (generate_calibration_sequence rounds shuffle).length = rounds * 8 := by
  unfold generate_calibration_sequence
  rw [List.length_flatten, List.map_map]
  have h : ∀ r ∈ List.range rounds,
      (List.length ∘ fun r => shuffle r (List.range 8)) r = 8 := by
    intro r _
    simp only [Function.comp_apply]
    rw [(hsh r).length_eq, List.length_range]
  rw [List.map_congr_left h, List.map_const', List.sum_replicate,
    List.length_range, smul_eq_mul]

lemma flatten_block {α : Type} (n : ℕ) :
    ∀ (bs : List (List α)), (∀ b ∈ bs, b.length = n) →
      ∀ k, k < bs.length →
        ((bs.flatten.drop (n * k)).take n) = bs.getD k [] := by
  intro bs
  induction bs with
  | nil => intro _ k hk; simp at hk
  | cons b rest ih =>
      intro hlen k hk
      cases k with
      | zero =>
          simp only [Nat.mul_zero, List.drop_zero, List.flatten_cons,
            List.getD_cons_zero]
          have hb : b.length = n := hlen b (List.mem_cons_self b rest)
          rw [← hb, List.take_left]
      | succ k =>
          have hb : b.length = n := hlen b (List.mem_cons_self b rest)
          have hdrop :
              (b ++ rest.flatten).drop (n * (k + 1)) =
                rest.flatten.drop (n * k) := by
            have : n * (k + 1) = b.length + n * k := by
              rw [hb]; ring
            rw [this, ← List.drop_drop, List.drop_left]
          simp only [List.flatten_cons, hdrop, List.getD_cons_succ]
          exact ih (fun c hc => hlen c (List.mem_cons_of_mem b hc)) k
            (Nat.lt_of_succ_lt_succ hk)

lemma generate_block (rounds : ℕ) (shuffle : ℕ → List ℕ → List ℕ)
    (hsh : ∀ r, (shuffle r (List.range 8)).Perm (List.range 8)) :
    ∀ k, k < rounds →
      (((generate_calibration_sequence rounds shuffle).drop (8 * k)).take
          8).Perm (List.range 8) := by
  intro k hk
  unfold generate_calibration_sequence
  set bs := (List.range rounds).map (fun r => shuffle r (List.range 8))
    with hbs
  have hlen : ∀ b ∈ bs, b.length = 8 := by
    intro b hb
    rw [hbs] at hb
    rcases List.mem_map.mp hb with ⟨r, _, rfl⟩
    rw [(hsh r).length_eq, List.length_range]
  have hklen : k < bs.length := by
    rw [hbs]; simpa using hk
  rw [flatten_block 8 bs hlen k hklen]
  have hmem : bs.getD k [] ∈ bs := by
    rw [List.getD_eq_getElem bs [] hklen]
    exact List.getElem_mem hklen
  rw [hbs] at hmem
  rcases List.mem_map.mp hmem with ⟨r, _, heq⟩
  rw [← heq]
  exact hsh r

/-- C7: with the shuffle oracle producing a permutation of `range 8`
each round (the contract of `random.shuffle`), the generated calibration
sequence has length `rounds * 8`, every contiguous block of 8 elements at
a round boundary is a permutation of the 8 target indices `0..7`, and in
particular 5 rounds give a sequence of length 40. -/
theorem C7_calibration_sequence_coverage
    (rounds : ℕ) (shuffle : ℕ → List ℕ → List ℕ)
    (hsh : ∀ r, (shuffle r (List.range 8)).Perm (List.range 8)) :
    (generate_calibration_sequence rounds shuffle).length = rounds * 8 ∧
    (∀ k, k < rounds →
      (((generate_calibration_sequence rounds shuffle).drop (8 * k)).take
          8).Perm (List.range 8)) ∧
    (rounds = 5 →
      (generate_calibration_sequence rounds shuffle).length = 40) := by
  refine ⟨generate_length rounds shuffle hsh,
    generate_block rounds shuffle hsh, ?_⟩
  intro h5
  rw [generate_length rounds shuffle hsh, h5]

/-- Witness for C7 with the identity shuffle oracle and 5 rounds. -/
theorem C7_calibration_sequence_coverage_witness :
    (∀ r, ((fun (_ : ℕ) (l : List ℕ) => l) r (List.range 8)).Perm
      (List.range 8)) ∧
    (generate_calibration_sequence 5 (fun _ l => l)).length = 40 ∧
    (((generate_calibration_sequence 5 (fun _ l => l)).drop (8 * 2)).take
        8).Perm (List.range 8) := by
  refine ⟨fun _ => List.Perm.refl _, ?_, ?_⟩
  · exact (C7_calibration_sequence_coverage 5 (fun _ l => l)
      (fun _ => List.Perm.refl _)).2.2 rfl
  · exact (C7_calibration_sequence_coverage 5 (fun _ l => l)
      (fun _ => List.Perm.refl _)).2.1 2 (by decide)

/-- C8: calling `start_calibration` in any phase other than the
calibration phase returns `False` and leaves the controller state
untouched (sequence, index, completed-rounds counter, timers, active
flag and glow states included): the precondition failure is signalled to
the caller, not thrown. -/
theorem C8_start_calibration_wrong_phase (now : ℚ)
    (shuffle : ℕ → List ℕ → List ℕ) (s : ControllerState)
    (h : s.current_phase ≠ PHASE_CALIBRATION) :
    start_calibration now shuffle s = some (false, s) := by
  unfold start_calibration
  rw [if_pos h]

/-- Witness for C8: starting calibration from the initial (testing-phase)
state is rejected without any state change. -/
theorem C8_start_calibration_wrong_phase_witness :
    initControllerState.current_phase ≠ PHASE_CALIBRATION ∧
    start_calibration 1 (fun _ l => l) initControllerState =
      some (false, initControllerState) := by
  refine ⟨by decide, ?_⟩
  exact C8_start_calibration_wrong_phase 1 (fun _ l => l)
    initControllerState (by decide)

/-- C9: `stop_calibration` is idempotent from any state — a second call
leaves the state of the first call unchanged — the resulting state always
has the calibration inactive, and stopping an active calibration
deactivates every stimulus glow, targets the swarm at home and hides the
timer. -/
theorem C9_stop_calibration_idempotent (s : ControllerState) :
    stop_calibration (stop_calibration s) = stop_calibration s ∧
    (stop_calibration s).calibration_active = false ∧
    (s.calibration_active = true →
      (∀ g ∈ (stop_calibration s).glow, g = false) ∧
      (stop_calibration s).dots_target = DotsTarget.home ∧
      (stop_calibration s).timer_visible = false) := by
  by_cases h : s.calibration_active = true
  · refine ⟨?_, ?_, fun _ => ⟨?_, ?_, ?_⟩⟩
    · unfold stop_calibration
      rw [if_pos h]
      rw [if_neg (by simp)]
    · unfold stop_calibration
      rw [if_pos h]
    · unfold stop_calibration
      rw [if_pos h]
      intro g hg
      rcases List.mem_map.mp hg with ⟨_, _, rfl⟩
      rfl
    · unfold stop_calibration
      rw [if_pos h]
    · unfold stop_calibration
      rw [if_pos h]
  · have h' : s.calibration_active = false := by
      cases hb : s.calibration_active
      · rfl
      · exact absurd hb h
    refine ⟨?_, ?_, fun hc => absurd hc h⟩
    · unfold stop_calibration
      rw [if_neg h, if_neg h]
    · unfold stop_calibration
      rw [if_neg h]
      exact h'

/-- Witness for C9 at the concrete mid-calibration state. -/
theorem C9_stop_calibration_idempotent_witness :
    midCalibrationState.calibration_active = true ∧
    stop_calibration (stop_calibration midCalibrationState) =
      stop_calibration midCalibrationState ∧
    (stop_calibration midCalibrationState).calibration_active = false ∧
    (∀ g ∈ (stop_calibration midCalibrationState).glow, g = false) ∧
    (stop_calibration midCalibrationState).dots_target = DotsTarget.home ∧
    (stop_calibration midCalibrationState).timer_visible = false := by
  refine ⟨rfl, (C9_stop_calibration_idempotent midCalibrationState).1,
    (C9_stop_calibration_idempotent midCalibrationState).2.1, ?_, ?_, ?_⟩
  · exact ((C9_stop_calibration_idempotent midCalibrationState).2.2 rfl).1
  · exact ((C9_stop_calibration_idempotent midCalibrationState).2.2 rfl).2.1
  · exact ((C9_stop_calibration_idempotent midCalibrationState).2.2 rfl).2.2

/-- C10: calling `start_calibration` while a run is already active and
the phase is still the calibration phase is not rejected: it returns
`True` and restarts the session in place — a fresh sequence replaces the
old one, the index, the completed-rounds counter and both timers are
reset, the glow phase is re-entered on the first target of the new
sequence, and nothing of the previous session's schedule survives. -/
theorem C10_start_calibration_restarts (now : ℚ)
    (shuffle : ℕ → List ℕ → List ℕ) (s : ControllerState)
    (hphase : s.current_phase = PHASE_CALIBRATION)
    (_hactive : s.calibration_active = true)
    (hrounds : 1 ≤ s.calibration_rounds)
    (hsh : ∀ r, (shuffle r (List.range 8)).Perm (List.range 8)) :
    ∃ i rest,
      generate_calibration_sequence s.calibration_rounds shuffle =
        i :: rest ∧
      start_calibration now shuffle s =
        some (true,
          { s with
            calibration_sequence := i :: rest
            calibration_active := true
            current_calibration_index := 0
            calibration_completed_rounds := 0
            calibration_start_time := some now
            calibration_session_start := some now
            is_in_glow_phase := true
            is_in_gap_phase := false
            timer_visible := true
            glow := activate_stimulus i s.glow }) := by
  have hlen : (generate_calibration_sequence s.calibration_rounds
      shuffle).length = s.calibration_rounds * 8 :=
    generate_length s.calibration_rounds shuffle hsh
  have hpos : 0 < (generate_calibration_sequence s.calibration_rounds
      shuffle).length := by
    rw [hlen]
    exact Nat.mul_pos hrounds (by decide)
  cases hseq : generate_calibration_sequence s.calibration_rounds shuffle
    with
  | nil => rw [hseq] at hpos; simp at hpos
  | cons i rest =>
      refine ⟨i, rest, rfl, ?_⟩
      unfold start_calibration
      rw [if_neg (fun hne => hne hphase), hseq]

lemma nearestFirst_ne_none (px py : ℝ) (x : Box) (xs : List Box) :
    nearestFirst px py (x :: xs) ≠ none := by
  unfold nearestFirst
  cases nearestFirst px py xs with
  | none => simp
  | some c =>
      dsimp only
      by_cases h : boxDist px py c < boxDist px py x
      · rw [if_pos h]; simp
      · rw [if_neg h]; simp

lemma nearestFirst_spec (px py : ℝ) :
    ∀ (l : List Box) (b : Box), nearestFirst px py l = some b →
      b ∈ l ∧ ∀ c ∈ l, boxDist px py b ≤ boxDist px py c := by
  intro l
  induction l with
  | nil => intro b hb; cases hb
  | cons a l ih =>
      intro b hb
      unfold nearestFirst at hb
      cases hr : nearestFirst px py l with
      | none =>
          rw [hr] at hb
          dsimp only at hb
          injection hb with hb
          subst hb
          have hl : l = [] := by
            cases l with
            | nil => rfl
            | cons x xs => exact absurd hr (nearestFirst_ne_none px py x xs)
          subst hl
          refine ⟨List.mem_cons_self _ _, ?_⟩
          intro c hc
          rcases List.mem_cons.mp hc with rfl | hc
          · exact le_refl _
          · cases hc
      | some r =>
          rw [hr] at hb
          dsimp only at hb
          rcases ih r hr with ⟨hrmem, hrmin⟩
          by_cases hlt : boxDist px py r < boxDist px py a
          · rw [if_pos hlt] at hb
            injection hb with hb
            subst hb
            refine ⟨List.mem_cons_of_mem a hrmem, ?_⟩
            intro c hc
            rcases List.mem_cons.mp hc with rfl | hc
            · exact le_of_lt hlt
            · exact hrmin c hc
          · rw [if_neg hlt] at hb
            injection hb with hb
            subst hb
            refine ⟨List.mem_cons_self _ _, ?_⟩
            intro c hc
            rcases List.mem_cons.mp hc with rfl | hc
            · exact le_refl _
            · exact le_trans (le_of_not_lt hlt) (hrmin c hc)

lemma nearestFirst_cons (px py : ℝ) (t : Box) (l : List Box) :
    nearestFirst px py (t :: l) =
      match nearestFirst px py l with
      | none => some t
      | some r =>
          if boxDist px py r < boxDist px py t then some r else some t :=
  rfl

lemma nearestFirst_skip (px py : ℝ) (t c : Box) (l : List Box)
    (h : boxDist px py t ≤ boxDist px py c) :
    nearestFirst px py (t :: c :: l) = nearestFirst px py (t :: l) := by
  rw [nearestFirst_cons px py t (c :: l), nearestFirst_cons px py t l]
  cases hr : nearestFirst px py l with
  | none =>
      have hc : nearestFirst px py (c :: l) = some c := by
        rw [nearestFirst_cons, hr]
      rw [hc]
      dsimp only
      rw [if_neg (not_lt.mpr h)]
  | some r =>
      have hc : nearestFirst px py (c :: l) =
          if boxDist px py r < boxDist px py c then some r else some c := by
        rw [nearestFirst_cons, hr]
      by_cases hrc : boxDist px py r < boxDist px py c
      · rw [hc, if_pos hrc]
      · rw [hc, if_neg hrc]
        dsimp only
        rw [if_neg (not_lt.mpr h),
          if_neg (not_lt.mpr (le_trans h (le_of_not_lt hrc)))]

lemma loopBody_some (px py m : ℝ) (t c : Box) :
    loopBody px py (some (m, t)) c =
      if boxDist px py c < m then some (boxDist px py c, c)
      else some (m, t) :=
  rfl

lemma closestLoop_agrees (px py : ℝ) :
    ∀ (l : List Box) (t : Box),
      ∃ b, nearestFirst px py (t :: l) = some b ∧
        List.foldl (loopBody px py) (some (boxDist px py t, t)) l =
          some (boxDist px py b, b) := by
  intro l
  induction l with
  | nil =>
      intro t
      exact ⟨t, rfl, rfl⟩
  | cons c l ih =>
      intro t
      by_cases hct : boxDist px py c < boxDist px py t
      · rcases ih c with ⟨b, hb1, hb2⟩
        refine ⟨b, ?_, ?_⟩
        · have hmin := (nearestFirst_spec px py (c :: l) b hb1).2 c
            (List.mem_cons_self c l)
          rw [nearestFirst_cons px py t (c :: l), hb1]
          dsimp only
          rw [if_pos (lt_of_le_of_lt hmin hct)]
        · rw [List.foldl_cons, loopBody_some, if_pos hct]
          exact hb2
      · rcases ih t with ⟨b, hb1, hb2⟩
        refine ⟨b, ?_, ?_⟩
        · rw [nearestFirst_skip px py t c l (le_of_not_lt hct)]
          exact hb1
        · rw [List.foldl_cons, loopBody_some, if_neg hct]
          exact hb2

lemma get_closest_box_eq_nearestFirst (cx cy radius px py : ℝ)
    (boxes : List Box)
    (hout : ¬ hypot (px - cx) (py - cy) < radius * 0.7) :
    get_closest_box cx cy radius px py boxes = nearestFirst px py boxes := by
  unfold get_closest_box
  rw [if_neg hout]
  cases boxes with
  | nil => rfl
  | cons t l =>
      rcases closestLoop_agrees px py l t with ⟨b, hb1, hb2⟩
      rw [hb1]
      unfold closestLoop
      rw [List.foldl_cons]
      have h0 : loopBody px py none t = some (boxDist px py t, t) := rfl
      rw [h0, hb2]
      rfl

lemma hypot_eval (x y c : ℝ) (hc : 0 ≤ c) (h : x * x + y * y = c * c) :
    hypot x y = c := by
  unfold hypot
  rw [h, Real.sqrt_mul_self hc]

/-- C3: whenever the pointer's Euclidean distance from the center is
strictly inside the neutral zone (`dist_center < circle_radius * 0.7`),
`get_closest_box` returns `None`, whatever the target layout. -/
theorem C3_neutral_zone_returns_none (cx cy radius px py : ℝ)
    (boxes : List Box)
    (h : hypot (px - cx) (py - cy) < radius * 0.7) :
    get_closest_box cx cy radius px py boxes = none := by
  unfold get_closest_box
  rw [if_pos h]

/-- Witness for C3: pointer `(30, 40)` with center `(0, 0)` and circle
radius 100 is at distance 50 < 70 from the center, so no box is
resolved. -/
theorem C3_neutral_zone_returns_none_witness :
    hypot ((30 : ℝ) - 0) ((40 : ℝ) - 0) < 100 * 0.7 ∧
    get_closest_box 0 0 100 30 40 [Box.mk 100 0, Box.mk (-100) 0] =
      none := by
  have h50 : hypot ((30 : ℝ) - 0) ((40 : ℝ) - 0) = 50 :=
    hypot_eval _ _ 50 (by norm_num) (by norm_num)
  have h : hypot ((30 : ℝ) - 0) ((40 : ℝ) - 0) < 100 * 0.7 := by
    rw [h50]; norm_num
  exact ⟨h, C3_neutral_zone_returns_none 0 0 100 30 40 _ h⟩

/-- C4: for a pointer at or beyond the neutral-zone boundary and a
non-empty box list, `get_closest_box` agrees with the spec-side
nearest-with-first-encountered-tie-break resolver, and in particular
returns a box of the list minimizing the Euclidean distance to the
pointer; with boxes at `(100, 0)` and `(-100, 0)`, center `(0, 0)`,
circle radius 50 and pointer `(50, 0)` (distance 50 from the center,
outside the 35-pixel neutral zone) it returns the box at `(100, 0)`. -/
theorem C4_nearest_box_selection (cx cy radius px py : ℝ)
    (boxes : List Box)
    (hout : ¬ hypot (px - cx) (py - cy) < radius * 0.7)
    (hne : boxes ≠ []) :
    (get_closest_box cx cy radius px py boxes =
      nearestFirst px py boxes) ∧
    (∃ b, get_closest_box cx cy radius px py boxes = some b ∧
      b ∈ boxes ∧ ∀ c ∈ boxes, boxDist px py b ≤ boxDist px py c) ∧
    get_closest_box 0 0 50 50 0 [Box.mk 100 0, Box.mk (-100) 0] =
      some (Box.mk 100 0) := by
  have heq := get_closest_box_eq_nearestFirst cx cy radius px py boxes hout
  refine ⟨heq, ?_, ?_⟩
  · cases boxes with
    | nil => exact absurd rfl hne
    | cons t l =>
        rcases closestLoop_agrees px py l t with ⟨b, hb1, _⟩
        rcases nearestFirst_spec px py (t :: l) b hb1 with ⟨hmem, hmin⟩
        exact ⟨b, by rw [heq, hb1], hmem, hmin⟩
  · have hd1 : boxDist 50 0 (Box.mk 100 0) = 50 := by
      show hypot ((50 : ℝ) - 100) ((0 : ℝ) - 0) = 50
      exact hypot_eval _ _ 50 (by norm_num) (by norm_num)
    have hd2 : boxDist 50 0 (Box.mk (-100) 0) = 150 := by
      show hypot ((50 : ℝ) - (-100)) ((0 : ℝ) - 0) = 150
      exact hypot_eval _ _ 150 (by norm_num) (by norm_num)
    have hcenter : hypot ((50 : ℝ) - 0) ((0 : ℝ) - 0) = 50 :=
      hypot_eval _ _ 50 (by norm_num) (by norm_num)
    have hout' : ¬ hypot ((50 : ℝ) - 0) ((0 : ℝ) - 0) < 50 * 0.7 := by
      rw [hcenter]; norm_num
    rw [get_closest_box_eq_nearestFirst 0 0 50 50 0 _ hout']
    have hnf2 : nearestFirst 50 0 [Box.mk (-100) 0] =
        some (Box.mk (-100) 0) := rfl
    rw [nearestFirst_cons, hnf2]
    dsimp only
    rw [if_neg (by rw [hd1, hd2]; norm_num)]

/-- Witness for C4 at the concrete layout of the claim: pointer `(50,0)`,
center `(0,0)`, radius 50, boxes at `(100,0)` and `(-100,0)`. -/
theorem C4_nearest_box_selection_witness :
    (¬ hypot ((50 : ℝ) - 0) ((0 : ℝ) - 0) < 50 * 0.7) ∧
    ([Box.mk (100 : ℝ) 0, Box.mk (-100) 0] ≠ []) ∧
    get_closest_box 0 0 50 50 0 [Box.mk 100 0, Box.mk (-100) 0] =
      some (Box.mk 100 0) := by
  have hcenter : hypot ((50 : ℝ) - 0) ((0 : ℝ) - 0) = 50 :=
    hypot_eval _ _ 50 (by norm_num) (by norm_num)
  have hout' : ¬ hypot ((50 : ℝ) - 0) ((0 : ℝ) - 0) < 50 * 0.7 := by
    rw [hcenter]; norm_num
  refine ⟨hout', by simp, ?_⟩
  exact (C4_nearest_box_selection 0 0 50 50 0
    [Box.mk 100 0, Box.mk (-100) 0] hout' (by simp)).2.2

/-- C6: for every tick duration and every particle state, the coherence
value returned by `CrowdDots.update` lies in `[0, 1]`; and whenever the
accumulated `total_speed` is zero (all particles at rest), the returned
coherence is exactly `0`, with no division-by-zero. -/
theorem C6_coherence_bounds (cx cy radius dt : ℝ) (dots : List Dot) :
    0 ≤ (update cx cy radius dt dots).2 ∧
    (update cx cy radius dt dots).2 ≤ 1 ∧
    ((updateAccum cx cy radius dt dots).2.2.2 = 0 →
      (update cx cy radius dt dots).2 = 0) := by
  refine ⟨le_max_left 0 _, ?_, ?_⟩
  · exact max_le (by norm_num) (min_le_left 1 _)
  · intro h0
    unfold update
    dsimp only
    rw [h0]
    norm_num

/-- Witness for C6: a single particle at rest at its target (zero
velocity, target = position) yields zero accumulated speed and coherence
exactly `0`. -/
theorem C6_coherence_bounds_witness :
    (updateAccum 0 0 100 1 [Dot.mk 0 0 0 0 0 0]).2.2.2 = 0 ∧
    (update 0 0 100 1 [Dot.mk 0 0 0 0 0 0]).2 = 0 := by
  have h00 : hypot (0 : ℝ) 0 = 0 := by
    unfold hypot
    norm_num
  have hstep : dotStep 0 0 100 1 (Dot.mk 0 0 0 0 0 0) =
      (Dot.mk 0 0 0 0 0 0, 0) := by
    unfold dotStep
    norm_num [h00]
  have htot : (updateAccum 0 0 100 1 [Dot.mk 0 0 0 0 0 0]).2.2.2 = 0 := by
    unfold updateAccum
    rw [List.foldl_cons]
    dsimp only
    rw [hstep]
    norm_num
  exact ⟨htot, (C6_coherence_bounds 0 0 100 1 [Dot.mk 0 0 0 0 0 0]).2.2 htot⟩

/-- Witness for C10: restarting from the concrete mid-calibration state
with the identity shuffle oracle. -/
theorem C10_start_calibration_restarts_witness :
    midCalibrationState.current_phase = PHASE_CALIBRATION ∧
    midCalibrationState.calibration_active = true ∧
    1 ≤ midCalibrationState.calibration_rounds ∧
    (∃ i rest,
      generate_calibration_sequence midCalibrationState.calibration_rounds
          (fun _ l => l) = i :: rest ∧
      start_calibration 9 (fun _ l => l) midCalibrationState =
        some (true,
          { midCalibrationState with
            calibration_sequence := i :: rest
            calibration_active := true
            current_calibration_index := 0
            calibration_completed_rounds := 0
            calibration_start_time := some 9
            calibration_session_start := some 9
            is_in_glow_phase := true
            is_in_gap_phase := false
            timer_visible := true
            glow := activate_stimulus i midCalibrationState.glow })) := by
  refine ⟨rfl, rfl, by decide, ?_⟩
  exact C10_start_calibration_restarts 9 (fun _ l => l)
    midCalibrationState rfl rfl (by decide) (fun _ => List.Perm.refl _)

end HAIxLab
